import Mathlib

/-!
# Verification of the nobodywho inference core

Shallow embedding of the completion worker of the repository (`core/src/llm.rs`),
chat state and template diffing (`src/chat_state.rs`), and sampler pipeline
builder (`src/sampler_config.rs`), together with theorems settling the
frozen claims about the natural-language specification.

Modelling conventions:
* tokens are natural numbers (`LlamaToken` is an opaque id);
* the llama.cpp primitives consumed by the worker (tokenize, decode,
  sample, detokenize, end-of-generation test, channel send) are an injected
  `Engine` record of pure functions, with `Except`/`Option` for the fallible
  ones, matching how the spec treats them as capabilities;
* Rust `String` is modelled by Lean `String`, with slicing and lengths
  measured in characters via the underlying `List Char`;
* loops are written with explicit fuel so every definition is executable
  and kernel-reducible; `none` marks fuel exhaustion only.
-/

namespace NobodyWho

/-- Token ids, `LlamaToken` in the source. -/
abbrev Token := Nat

/-- Errors `WorkerError` (core/src/llm.rs): the worker-fatal error kinds that the
completion worker can hit while processing a command.  Detokenize failure is
listed because the enum carries it, even though `handle_msg` recovers it via
`unwrap_or`. -/
inductive WorkerError where
  | tokenizerError
  | detokenizeError
  | batchAddError
  | decodeError
  | sendError
  | gilPoisonError
  deriving DecidableEq

/-- Events `LLMOutput` (core/src/llm.rs): events on the outbound completion channel. -/
inductive LLMOutput where
  | token (s : String)
  | fatalErr (e : WorkerError)
  | done (s : String)
  deriving DecidableEq

/-- Rust `str::contains` on our character-list model of strings. -/
def strContainsB (haystack needle : String) : Bool :=
  decide (needle.data <:+: haystack.data)

/-- Substring containment as a proposition. -/
def strContains (haystack needle : String) : Prop :=
  needle.data <:+: haystack.data

/-- The llama.cpp capabilities consumed by the completion worker, as an
injected record of pure functions (§6 of the spec treats them as an
interface).
* `decodeOk ctx batch` returns `some err` when committing `batch` on top of
  the committed tokens `ctx` fails (batch-add or decode failure folded into
  one fallible commit step), `none` on success;
* `sample ctx` is the sampler pipeline: a function of the committed context
  (which subsumes any internal sampler state, since that state is itself a
  function of the tokens accepted so far);
* `sendOk o` models whether sending `o` on the output channel succeeds
  (false once the receiver is dropped);
* `gilOk` models acquisition of the global inference lock (false iff the
  lock is poisoned). -/
structure Engine where
  nCtx : Nat
  tokenize : String → Except WorkerError (List Token)
  decodeOk : List Token → List Token → Option WorkerError
  sample : List Token → Token
  tokenToStr : Token → Except WorkerError String
  isEog : Token → Bool
  sendOk : LLMOutput → Bool
  gilOk : Bool

/-- State `WorkerState` (core/src/llm.rs): `n_past` is the position counter, `ctx`
the tokens committed to the context (the kv cache content), `stopTokens` the
configured stop substrings. -/
structure WorkerState where
  nPast : Nat
  ctx : List Token
  stopTokens : List String
  deriving DecidableEq

/-- Commands `WorkerMsg` (core/src/llm.rs).  The output channel of `writeUntilDone` is
modelled by `Engine.sendOk`. -/
inductive WorkerMsg where
  | readString (text : String)
  | writeUntilDone
  | resetContext

/-- Number of tokens discarded by `apply_context_shifting` at position
`n_past` (with `n_keep = 0`): `n_discard = (n_past - n_keep) / 2`. -/
def shiftDiscard (nPast : Nat) : Nat :=
  nPast / 2

/-- The context-shift test and update at the top of the generation loop:
if `n_past >= n_ctx - 1`, discard the oldest `shiftDiscard n_past` tokens,
shift the rest left, and decrement `n_past` by the discard count. -/
def applyShift (nCtx : Nat) (s : WorkerState) : WorkerState :=
  if nCtx - 1 ≤ s.nPast then
    { s with
      nPast := s.nPast - shiftDiscard s.nPast,
      ctx := s.ctx.drop (shiftDiscard s.nPast) }
  else s

/-- One worker state after sampling and committing one token in the
generation loop: position advances by one, the token joins the context. -/
def commitTok (s : WorkerState) (tok : Token) : WorkerState :=
  { s with nPast := s.nPast + 1, ctx := s.ctx ++ [tok] }

/-- The token the sampler pipeline produces at the top of a loop iteration
(`state.sampler.sample(&state.ctx, -1)` after the shift check). -/
def nextTok (e : Engine) (s : WorkerState) : Token :=
  e.sample (applyShift e.nCtx s).ctx

/-- Model of `token_to_str_with_size(...).unwrap_or("�")`: detokenize, substituting
the replacement character for a non-decodable byte sequence. -/
def detok (e : Engine) (tok : Token) : String :=
  match e.tokenToStr tok with
  | .ok str => str
  | .error _ => "�"

/-- The token-generation loop of `WorkerMsg::WriteUntilDone` in `handle_msg`
(core/src/llm.rs).  Returns the `Token` events sent plus either the final
accumulated response and worker state, or the worker-fatal error.  `none` is
fuel exhaustion only (the real loop has no fuel bound).

Loop body, in source order: context shift when `n_past >= n_ctx - 1`;
sample; commit the sampled token (decode may fail); detokenize with the
replacement character `�` on failure; compute `has_stop_tokens` on the
accumulated response *before* appending the current token; if the token is
not end-of-generation, append its text and send a `Token` event; break when
end-of-generation or a stop substring was found. -/
def genLoop (e : Engine) :
    Nat → WorkerState → String →
    Option (List LLMOutput × Except WorkerError (String × WorkerState))
  | 0, _, _ => none
  | fuel + 1, s, resp =>
    match e.decodeOk (applyShift e.nCtx s).ctx [nextTok e s] with
    | some err => some ([], .error err)
    | none =>
      if e.isEog (nextTok e s) then
        some ([], .ok (resp, commitTok (applyShift e.nCtx s) (nextTok e s)))
      else
        if e.sendOk (.token (detok e (nextTok e s))) then
          if s.stopTokens.any (fun st => strContainsB resp st) then
            some ([.token (detok e (nextTok e s))],
              .ok (resp ++ detok e (nextTok e s),
                commitTok (applyShift e.nCtx s) (nextTok e s)))
          else
            match genLoop e fuel (commitTok (applyShift e.nCtx s) (nextTok e s))
                (resp ++ detok e (nextTok e s)) with
            | none => none
            | some (evs, r) => some (.token (detok e (nextTok e s)) :: evs, r)
        else some ([], .error .sendError)

/-- Command handler `handle_msg` (core/src/llm.rs).  Acquires the global inference lock
first; then processes one command.  Returns the events sent on the output
channel together with either the next worker state or the worker-fatal
error.  The stray `dbg!` tokenization of a fixed string inside
`ReadString` is kept because its `?` can propagate a tokenizer error. -/
def handle_msg (e : Engine) (fuel : Nat) (s : WorkerState) (msg : WorkerMsg) :
    Option (List LLMOutput × Except WorkerError WorkerState) :=
  if e.gilOk then
    match msg with
    | .readString text =>
      match e.tokenize text with
      | .error err => some ([], .error err)
      | .ok tokens =>
        match e.tokenize "</tool_call>" with
        | .error err => some ([], .error err)
        | .ok _ =>
          match e.decodeOk s.ctx tokens with
          | some err => some ([], .error err)
          | none =>
            some ([], .ok { s with
              nPast := s.nPast + tokens.length,
              ctx := s.ctx ++ tokens })
    | .writeUntilDone =>
      match genLoop e fuel s "" with
      | none => none
      | some (evs, .error err) => some (evs, .error err)
      | some (evs, .ok (resp, s1)) =>
        if e.sendOk (.done resp) then
          some (evs ++ [.done resp], .ok s1)
        else some (evs, .error .sendError)
    | .resetContext =>
      some ([], .ok { s with nPast := 0, ctx := [] })
  else some ([], .error .gilPoisonError)

/-- Worker loop `completion_worker_actor` (core/src/llm.rs): processes commands in
order; on `handle_msg` success it continues with the new state, on failure
it terminates, returning the error from the thread — the
`completion_tx.send(LLMOutput::FatalErr(err))` line there is commented out,
so nothing further is sent.  Result: all events delivered on the outbound
channel, plus `some err` when the worker died on a worker-fatal error
(`none` when the command list was drained). -/
def completion_worker_actor (e : Engine) (fuel : Nat) :
    List WorkerMsg → WorkerState → Option (List LLMOutput × Option WorkerError)
  | [], _ => some ([], none)
  | msg :: rest, s =>
    match handle_msg e fuel s msg with
    | none => none
    | some (evs, .error err) => some (evs, some err)
    | some (evs, .ok s1) =>
      match completion_worker_actor e fuel rest s1 with
      | none => none
      | some (evs1, r) => some (evs ++ evs1, r)

/-- Whether an outbound event is a `FatalErr` event. -/
def isFatal : LLMOutput → Bool
  | .fatalErr _ => true
  | _ => false

/-! ## Chat state and template diffing (`src/chat_state.rs`) -/

/-- Chat `Message` (src/chat_state.rs). -/
structure Message where
  role : String
  content : String
  deriving DecidableEq

/-- The minijinja error kinds the renderer distinguishes: it special-cases
`ErrorKind::InvalidOperation` and treats every other kind opaquely. -/
inductive ErrorKind where
  | invalidOperation
  | other
  deriving DecidableEq

/-- A minijinja rendering error: its kind plus its display message. -/
structure RenderError where
  kind : ErrorKind
  msg : String
  deriving DecidableEq

/-- A template, as the renderer consumes it: a function from the message
list to rendered text or a rendering error (`tmpl.render(ctx)` with
`add_generation_prompt = true`). -/
abbrev Template := List Message → Except RenderError String

/-- Merge helper `concat_system_and_first_user_messages` (src/chat_state.rs): merge a
leading system message and the first user message into one user message
whose content is system text, blank line, user text.  `none` models the
`assert!` panics (fewer than two messages, or wrong roles). -/
def concat_system_and_first_user_messages (messages : List Message) :
    Option (List Message) :=
  match messages with
  | m0 :: m1 :: rest =>
    if m0.role = "system" ∧ m1.role = "user" then
      some ({ role := "user", content := m0.content ++ "\n\n" ++ m1.content } :: rest)
    else none
  | _ => none

/-- Renderer `ChatState::render` (src/chat_state.rs), with explicit fuel so the
definition is structural (the real recursion terminates because the merge
shortens the message list; `render` below supplies ample fuel).  On a
successful render it returns the text together with the possibly-merged
message list (the Rust method mutates `self.messages` in the recovery
path); on failure, the propagated error.  `none` models panic or fuel
exhaustion. -/
def renderFuel (tmpl : Template) :
    Nat → List Message → Option (Except RenderError (String × List Message))
  | 0, _ => none
  | fuel + 1, messages =>
    match tmpl messages with
    | .ok rendered => some (.ok (rendered, messages))
    | .error err =>
      if err.kind = ErrorKind.invalidOperation ∧
          strContainsB err.msg "System role not supported" = true then
        match concat_system_and_first_user_messages messages with
        | some merged => renderFuel tmpl fuel merged
        | none => none
      else some (.error err)

/-- Full render `ChatState::render`: each merge strictly shortens the message list, so
`messages.length + 1` units of fuel always suffice. -/
def render (tmpl : Template) (messages : List Message) :
    Option (Except RenderError (String × List Message)) :=
  renderFuel tmpl (messages.length + 1) messages

/-- State `ChatState` (src/chat_state.rs): message history plus the length of the
most recent full render (`length`, measured here in characters). -/
structure ChatState where
  messages : List Message
  length : Nat
  deriving DecidableEq

/-- Append `ChatState::add_message`: append, no validation. -/
def add_message (s : ChatState) (role content : String) : ChatState :=
  { s with messages := s.messages ++ [{ role := role, content := content }] }

/-- Character-based model of the Rust byte slice `text[length..]`. -/
def strDrop (s : String) (n : Nat) : String :=
  ⟨s.data.drop n⟩

/-- Character-based model of Rust `text.len()`. -/
def strLen (s : String) : Nat :=
  s.data.length

/-- Diff render `ChatState::render_diff` (src/chat_state.rs): render the full history,
return the suffix appended since the previous full render, and advance the
bookkeeping length to the new full-render length. -/
def render_diff (tmpl : Template) (s : ChatState) :
    Option (Except RenderError (String × ChatState)) :=
  match render tmpl s.messages with
  | none => none
  | some (.error err) => some (.error err)
  | some (.ok (text, messages1)) =>
    some (.ok (strDrop text s.length,
      { messages := messages1, length := strLen text }))

/-- A template that always succeeds, rendering via the pure function `f`. -/
def pureTmpl (f : List Message → String) : Template :=
  fun messages => .ok (f messages)

/-- One caller action on a `ChatState`. -/
inductive ChatOp where
  | add (role content : String)
  | diff

/-- Run a sequence of `add_message` / `render_diff` actions, accumulating
the concatenation of all `render_diff` outputs.  `none` when a render
fails or panics (callers in the repository `.expect` on those). -/
def runOps (tmpl : Template) :
    List ChatOp → ChatState → String → Option (ChatState × String)
  | [], s, acc => some (s, acc)
  | .add role content :: ops, s, acc =>
    runOps tmpl ops (add_message s role content) acc
  | .diff :: ops, s, acc =>
    match render_diff tmpl s with
    | some (.ok (d, s1)) => runOps tmpl ops s1 (acc ++ d)
    | _ => none

/-- Modelled from the spec: one turn of a gemma-style chat template (the
actual template text lives in the model file, not in the repository).  Each
message becomes a delimited turn carrying its role and content. -/
def gemmaTurn (m : Message) : String :=
  "<start_of_turn>" ++ m.role ++ "\n" ++ m.content ++ "<end_of_turn>\n"

/-- All turns of a message list, concatenated in order. -/
def gemmaTurns : List Message → String
  | [] => ""
  | m :: ms => gemmaTurn m ++ gemmaTurns ms

/-- Modelled from the spec: the full text a gemma-style template produces
with `add_generation_prompt = true` — every turn in order, then the
generation prompt for the next assistant turn. -/
def gemmaTextRender (messages : List Message) : String :=
  gemmaTurns messages ++ "<start_of_turn>model\n"

/-- Modelled from the spec: a template that rejects a leading system-role
message with exactly the minijinja error the recovery path of the renderer
matches on (this is the gemma2 behaviour the source comments name), and
renders like `gemmaTextRender` otherwise. -/
def TGemma : Template :=
  fun messages =>
    match messages with
    | m0 :: _ =>
      if m0.role = "system" then
        .error { kind := .invalidOperation, msg := "System role not supported" }
      else .ok (gemmaTextRender messages)
    | [] => .ok (gemmaTextRender messages)

/-- Whether, for the pure template `f`, running `ops` from a fresh chat
state yields a diff concatenation equal to the full render of the final
message list (vacuously true when the run aborts). -/
def diffConcatOkP (f : List Message → String) (ops : List ChatOp) : Bool :=
  match runOps (pureTmpl f) ops { messages := [], length := 0 } "" with
  | some (s, acc) => acc == f s.messages
  | none => true

/-! ## Sampler pipeline builder (`src/sampler_config.rs`) -/

/-- Methods `SamplerMethod` (src/sampler_config.rs): the closed tagged union of
sampling methods with their numeric fields.  `u32` seeds become `Nat`,
`i32` fields become `Int`, `f32` fields become `ℚ` (all concrete values in
the source are exactly representable). -/
inductive SamplerMethod where
  | greedy
  | dry (seed : Nat) (dryMultiplier dryBase : ℚ) (dryAllowedLength dryPenaltyLastN : Int)
  | topK (topKv : Int) (seed : Nat)
  | topP (seed : Nat) (minKeep : Nat) (topPv : ℚ)
  | minP (seed : Nat) (minKeep : Nat) (minPv : ℚ)
  | xtc (seed : Nat) (xtcProbability xtcThreshold : ℚ) (minKeep : Nat)
  | typicalP (seed : Nat) (typP : ℚ) (minKeep : Nat)
  | temperature (seed : Nat) (temp : ℚ)
  | mirostatV1 (seed : Nat) (temp tau eta : ℚ)
  | mirostatV2 (seed : Nat) (temp tau eta : ℚ)
  deriving DecidableEq

/-- Config `SamplerConfig` (src/sampler_config.rs): method plus the shared
repetition-penalty fields. -/
structure SamplerConfig where
  method : SamplerMethod
  penaltyLastN : Int
  penaltyRepeat : ℚ
  penaltyFreq : ℚ
  penaltyPresent : ℚ
  deriving DecidableEq

/-- One stage of a llama.cpp sampler chain, named after the
`LlamaSampler` constructor that builds it.  The `minPStage` constructor
denotes `LlamaSampler::min_p` — the min-p truncation stage the library
offers; it is listed so the claims about the MinP method can be stated,
although `make_sampler` never produces it. -/
inductive SamplerStage where
  | penalties (lastN : Int) (penRepeat penFreq penPresent : ℚ)
  | greedy
  | dry (dryMultiplier dryBase : ℚ) (dryAllowedLength dryPenaltyLastN : Int)
      (seqBreakers : List String)
  | topK (k : Int)
  | topP (p : ℚ) (minKeep : Nat)
  | minPStage (p : ℚ) (minKeep : Nat)
  | xtc (p t : ℚ) (minKeep seed : Nat)
  | typical (p : ℚ) (minKeep : Nat)
  | temp (t : ℚ)
  | mirostat (nVocab : Int) (seed : Nat) (tau eta : ℚ) (m : Nat)
  | mirostatV2 (seed : Nat) (tau eta : ℚ)
  | dist (seed : Nat)
  deriving DecidableEq

/-- Builder `make_sampler` (src/sampler_config.rs): the ordered sampler chain built
for a config — the penalties stage first, then the method-specific stages,
transcribed branch by branch from the source (`nVocab` stands for
`model.n_vocab()`, used only by MirostatV1).  Note the MinP branch: the
source passes `conf.min_p` and `conf.min_keep` to `LlamaSampler::top_p`. -/
def make_sampler (nVocab : Int) (samplerConfig : SamplerConfig) : List SamplerStage :=
  let penalties : SamplerStage :=
    .penalties samplerConfig.penaltyLastN samplerConfig.penaltyRepeat
      samplerConfig.penaltyFreq samplerConfig.penaltyPresent
  match samplerConfig.method with
  | .greedy => [penalties, .greedy]
  | .dry seed m b al ln =>
    [penalties, .dry m b al ln ["\n", ":", "\"", "*"], .dist seed]
  | .topK k seed => [penalties, .topK k, .dist seed]
  | .topP seed minKeep p => [penalties, .topP p minKeep, .dist seed]
  | .minP seed minKeep p => [penalties, .topP p minKeep, .dist seed]
  | .xtc seed prob threshold minKeep =>
    [penalties, .xtc prob threshold minKeep seed, .dist seed]
  | .typicalP seed p minKeep => [penalties, .typical p minKeep, .dist seed]
  | .temperature seed t => [penalties, .temp t, .dist seed]
  | .mirostatV1 seed t tau eta =>
    [penalties, .temp t, .mirostat nVocab seed tau eta 100]
  | .mirostatV2 seed t tau eta =>
    [penalties, .temp t, .mirostatV2 seed tau eta]

/-! ## Greedy sampling and generation as a run relation

For the determinism claim, generation is also given as a big-step relation
over an injected deterministic stub engine, and the relation is proved
functional: any two derivations from the same start state produce the same
event sequence. -/

/-- First-max argmax over scores, as the greedy sampler of llama.cpp selects it
(`std::max_element`: a later score must be strictly greater to replace the
current best). -/
def argmaxFrom (cur best : Nat) (bestScore : ℚ) : List ℚ → Nat
  | [] => best
  | x :: xs =>
    if bestScore < x then argmaxFrom (cur + 1) cur x xs
    else argmaxFrom (cur + 1) best bestScore xs

/-- The greedy sampler: index of the first maximal score. -/
def greedy_argmax : List ℚ → Nat
  | [] => 0
  | x :: xs => argmaxFrom 1 0 x xs

/-- A deterministic stub inference engine for a generation run: the score
distribution for the next token as a function of the committed context,
detokenization, and the end-of-generation predicate. -/
structure StubEngine where
  nCtx : Nat
  scores : List Token → List ℚ
  tokenToStr : Token → String
  isEog : Token → Bool

/-- The token the Greedy pipeline selects at worker state `s`: shift if
needed, then take the first-max index of the stub score distribution. -/
def stepTok (e : StubEngine) (s : WorkerState) : Token :=
  greedy_argmax (e.scores (applyShift e.nCtx s).ctx)

/-- The worker state after one loop iteration at `s` (shift, then commit
the greedily sampled token). -/
def stepState (e : StubEngine) (s : WorkerState) : WorkerState :=
  commitTok (applyShift e.nCtx s) (stepTok e s)

/-- Big-step run relation for `WriteUntilDone` under the Greedy method on a
deterministic stub engine: `GreedyRun e s resp evs` holds when one
execution of the generation loop from worker state `s` with accumulated
response `resp` emits exactly the events `evs` (the `Token` stream plus the
terminal `Done`).  The three constructors mirror the three loop exits in
`handle_msg`: break on end-of-generation (token never appended or
emitted), break on a stop-substring match (current token appended and
emitted first), and the continuing iteration. -/
inductive GreedyRun (e : StubEngine) : WorkerState → String → List LLMOutput → Prop where
  | eog (s : WorkerState) (resp : String)
      (heog : e.isEog (stepTok e s) = true) :
      GreedyRun e s resp [.done resp]
  | stop (s : WorkerState) (resp : String)
      (heog : e.isEog (stepTok e s) = false)
      (hstop : s.stopTokens.any (fun st => strContainsB resp st) = true) :
      GreedyRun e s resp
        [.token (e.tokenToStr (stepTok e s)),
         .done (resp ++ e.tokenToStr (stepTok e s))]
  | cont (s : WorkerState) (resp : String) (evs : List LLMOutput)
      (heog : e.isEog (stepTok e s) = false)
      (hstop : s.stopTokens.any (fun st => strContainsB resp st) = false)
      (hrest : GreedyRun e (stepState e s)
        (resp ++ e.tokenToStr (stepTok e s)) evs) :
      GreedyRun e s resp (.token (e.tokenToStr (stepTok e s)) :: evs)

/-! ## Embedding utilities (`core/src/llm.rs`)

The `f32` arithmetic of `dotproduct` and `cosine_similarity` is modelled
over the exact reals; `f32::NAN` becomes the `nan` sentinel and the
`assert!` panic on a length mismatch becomes `panicked`. -/

/-- Result of `cosine_similarity`: a numeric value, the not-a-number
sentinel, or an assertion panic. -/
inductive CosResult where
  | val (r : ℝ)
  | nan
  | panicked

/-- The raw zip-multiply-sum of `dotproduct`, before its length assertion. -/
noncomputable def dotScalar (a b : List ℝ) : ℝ :=
  ((a.zip b).map (fun p => p.1 * p.2)).sum

/-- Dot product `dotproduct` (core/src/llm.rs): `assert!(a.len() == b.len())`, then the
elementwise product sum; `none` models the panic. -/
noncomputable def dotproduct (a b : List ℝ) : Option ℝ :=
  if a.length = b.length then some (dotScalar a b) else none

/-- Similarity `cosine_similarity` (core/src/llm.rs), preserving evaluation order: the
two self-dot-products (which cannot panic) and their square roots first,
then the zero-norm check returning the sentinel, and only then the mixed
dot product, which is where a length mismatch panics. -/
noncomputable def cosine_similarity (a b : List ℝ) : CosResult :=
  match dotproduct a a, dotproduct b b with
  | some da, some db =>
    if Real.sqrt da = 0 ∨ Real.sqrt db = 0 then .nan
    else
      match dotproduct a b with
      | some dab => .val (dab / (Real.sqrt da * Real.sqrt db))
      | none => .panicked
  | _, _ => .panicked

/-- The Euclidean norm ‖a‖ the spec speaks about: the square root of the
sum of squares. -/
noncomputable def euclidNorm (a : List ℝ) : ℝ :=
  Real.sqrt ((a.map (fun x => x ^ 2)).sum)

/-! ## Concrete instances used by witnesses and counterexamples -/

/-- A content-concatenating template body: the render is just every
content of every message in order (prefix-monotone under appends). -/
def catContents : List Message → String
  | [] => ""
  | m :: ms => m.content ++ catContents ms

/-- Engine for the stop-substring scenario of the spec: successive tokens
detokenize to "giraffe, ", "horse", ", lion"; no end-of-generation; all
primitives succeed. -/
def engStop : Engine where
  nCtx := 100
  tokenize := fun _ => .ok [0]
  decodeOk := fun _ _ => none
  sample := fun ctx => ctx.length
  tokenToStr := fun t =>
    .ok (if t = 0 then "giraffe, " else if t = 1 then "horse" else ", lion")
  isEog := fun _ => false
  sendOk := fun _ => true
  gilOk := true

/-- Engine with context capacity 2, the degenerate capacity at which the
shift-then-commit iteration escapes `[0, nCtx)`. -/
def engShift : Engine where
  nCtx := 2
  tokenize := fun _ => .ok [0]
  decodeOk := fun _ _ => none
  sample := fun _ => 7
  tokenToStr := fun _ => .ok "x"
  isEog := fun _ => true
  sendOk := fun _ => true
  gilOk := true

/-- Engine whose commit primitive always fails: the first decode aborts the
worker with `DecodeError`. -/
def engFail : Engine where
  nCtx := 100
  tokenize := fun _ => .ok [0]
  decodeOk := fun _ _ => some .decodeError
  sample := fun _ => 0
  tokenToStr := fun _ => .ok "x"
  isEog := fun _ => false
  sendOk := fun _ => true
  gilOk := true

/-- Engine with capacity 3 that ends generation immediately. -/
def engEogSmall : Engine where
  nCtx := 3
  tokenize := fun _ => .ok [0]
  decodeOk := fun _ _ => none
  sample := fun _ => 0
  tokenToStr := fun _ => .ok "x"
  isEog := fun _ => true
  sendOk := fun _ => true
  gilOk := true

/-- Deterministic stub engine that ends generation at once. -/
def stubDone : StubEngine where
  nCtx := 10
  scores := fun _ => [1]
  tokenToStr := fun _ => "x"
  isEog := fun _ => true

/-! ## Helper lemmas -/

theorem strData_append (a b : String) : (a ++ b).data = a.data ++ b.data := by
  cases a
  cases b
  rfl

theorem strContains_self (a : String) : strContains a a :=
  List.infix_refl _

theorem strContains_append_left {a n : String} (b : String)
    (h : strContains a n) : strContains (a ++ b) n := by
  unfold strContains at h ⊢
  rw [strData_append]
  exact h.trans ( List.IsPrefix.isInfix ( List.prefix_append _ _))

theorem strContains_append_right {b n : String} (a : String)
    (h : strContains b n) : strContains (a ++ b) n := by
  unfold strContains at h ⊢
  rw [strData_append]
  exact h.trans ( List.IsSuffix.isInfix (List.suffix_append _ _))

/-! ## C1 — stop-substring behaviour of the generation loop -/

/-- C1 (amended).  Once the accumulated response contains a configured stop
substring, the generation loop does not stop immediately: exactly one
further token is sampled and committed at the next iteration, and the loop
then breaks.  If that extra token is the end-of-generation marker, nothing
more is emitted and the final response is exactly the accumulated text;
otherwise the text of the extra token is appended and emitted as one final
`Token` event, and the final response (carried into the terminal `Done`
event by `handle_msg`) ends with that extra text following the stop match. -/
theorem stop_match_ends_generation_next_iteration
    (e : Engine) (fuel : Nat) (s : WorkerState) (resp : String)
    (hstop : s.stopTokens.any (fun st => strContainsB resp st) = true)
    (hsend : ∀ o, e.sendOk o = true)
    (hdec : ∀ c b, e.decodeOk c b = none) :
    (e.isEog (nextTok e s) = true ∧
      genLoop e (fuel + 1) s resp =
        some ([], .ok (resp, commitTok (applyShift e.nCtx s) (nextTok e s)))) ∨
    (e.isEog (nextTok e s) = false ∧
      genLoop e (fuel + 1) s resp =
        some ([.token (detok e (nextTok e s))],
          .ok (resp ++ detok e (nextTok e s),
            commitTok (applyShift e.nCtx s) (nextTok e s)))) := by
  cases heog : e.isEog (nextTok e s) with
  | true =>
    left
    exact ⟨rfl, by simp [genLoop, hdec, heog]⟩
  | false =>
    right
    exact ⟨rfl, by simp [genLoop, hdec, heog, hsend, hstop]⟩

/-- Witness for C1 (amended): a concrete engine and a response already
containing the stop substring "horse"; the run emits exactly one further
token and stops. -/
theorem stop_match_ends_generation_next_iteration_witness :
    ((⟨0, [], ["horse"]⟩ : WorkerState).stopTokens.any
        (fun st => strContainsB "a horse!" st) = true) ∧
    ((engStop.isEog (nextTok engStop ⟨0, [], ["horse"]⟩) = true ∧
      genLoop engStop 5 ⟨0, [], ["horse"]⟩ "a horse!" =
        some ([], .ok ("a horse!",
          commitTok (applyShift engStop.nCtx ⟨0, [], ["horse"]⟩)
            (nextTok engStop ⟨0, [], ["horse"]⟩)))) ∨
     (engStop.isEog (nextTok engStop ⟨0, [], ["horse"]⟩) = false ∧
      genLoop engStop 5 ⟨0, [], ["horse"]⟩ "a horse!" =
        some ([.token (detok engStop (nextTok engStop ⟨0, [], ["horse"]⟩))],
          .ok ("a horse!" ++ detok engStop (nextTok engStop ⟨0, [], ["horse"]⟩),
            commitTok (applyShift engStop.nCtx ⟨0, [], ["horse"]⟩)
              (nextTok engStop ⟨0, [], ["horse"]⟩))))) :=
  ⟨by decide,
   stop_match_ends_generation_next_iteration engStop 4 ⟨0, [], ["horse"]⟩
     "a horse!" (by decide) (fun _ => rfl) (fun _ _ => rfl)⟩

/-- Counterexample to C1 as stated: with stop substring "horse" and tokens
detokenizing to "giraffe, ", "horse", ", lion", the worker emits a `Token`
event *after* the accumulated response already contains "horse", and the
terminal `Done` response "giraffe, horse, lion" contains text ("lion")
following the stop match. -/
theorem stop_match_emits_extra_token_cex :
    handle_msg engStop 5 ⟨0, [], ["horse"]⟩ .writeUntilDone =
      some ([.token "giraffe, ", .token "horse", .token ", lion",
             .done "giraffe, horse, lion"], .ok ⟨3, [0, 1, 2], ["horse"]⟩) ∧
    strContainsB "giraffe, horse, lion" "lion" = true :=
  ⟨rfl, by decide⟩

/-! ## C7 — sampler pipeline built for the MinP method -/

/-- C7 (code bug).  For the default-valued MinP configuration (seed 1234,
min_p = 0.05 = 1/20, min_keep = 0, default penalties), the pipeline built
by `make_sampler` is penalties, then a *top-p* truncation stage carrying the
min_p value, then the seeded draw — the MinP branch of the source passes
`conf.min_p` to `LlamaSampler::top_p`, so no min-p stage ever appears. -/
theorem make_sampler_minp_builds_topp :
    make_sampler 32000
      { method := .minP 1234 0 (1 / 20), penaltyLastN := -1,
        penaltyRepeat := 0, penaltyFreq := 0, penaltyPresent := 0 } =
      [.penalties (-1) 0 0 0, .topP (1 / 20) 0, .dist 1234] :=
  rfl

/-! ## C2 — fatal failures and the outbound event channel -/

/-- The generation loop never places a `FatalErr` event on the outbound
channel: every event it sends is a `Token`. -/
theorem genLoop_no_fatal (e : Engine) (fuel : Nat) :
    ∀ s resp res, genLoop e fuel s resp = some res →
      res.1.all (fun o => !isFatal o) = true := by
  induction fuel with
  | zero =>
    intro s resp res h
    simp [genLoop] at h
  | succ n ih =>
    intro s resp res h
    simp only [genLoop] at h
    split at h
    · injection h with h2
      subst h2
      simp
    · split at h
      · injection h with h2
        subst h2
        simp
      · split at h
        · split at h
          · injection h with h2
            subst h2
            simp [isFatal]
          · split at h
            · cases h
            · injection h with h2
              subst h2
              rename_i evs1 r1 heq
              simp only [List.all_cons, isFatal, Bool.not_false, Bool.true_and]
              exact ih _ _ _ heq
        · injection h with h2
          subst h2
          simp

/-- Likewise `handle_msg` never places a `FatalErr` event on the outbound channel. -/
theorem handle_msg_no_fatal (e : Engine) (fuel : Nat) (s : WorkerState)
    (msg : WorkerMsg) (res) (h : handle_msg e fuel s msg = some res) :
    res.1.all (fun o => !isFatal o) = true := by
  unfold handle_msg at h
  split at h
  · match msg with
    | .readString text =>
      simp only at h
      split at h
      · injection h with h2
        subst h2
        simp
      · split at h
        · injection h with h2
          subst h2
          simp
        · split at h
          · injection h with h2
            subst h2
            simp
          · injection h with h2
            subst h2
            simp
    | .writeUntilDone =>
      simp only at h
      split at h
      · cases h
      next evs1 err1 heq =>
        injection h with h2
        subst h2
        exact genLoop_no_fatal e fuel _ _ _ heq
      next evs1 resp1 s1 heq =>
        split at h
        · injection h with h2
          subst h2
          have h3 := genLoop_no_fatal e fuel _ _ _ heq
          simp only at h3
          rw [List.all_append, h3]
          simp [isFatal]
        · injection h with h2
          subst h2
          exact genLoop_no_fatal e fuel _ _ _ heq
    | .resetContext =>
      simp only at h
      injection h with h2
      subst h2
      simp
  · injection h with h2
    subst h2
    simp

/-- C2 (amended).  Whatever commands the completion worker processes and
wherever a worker-fatal primitive failure strikes, the events delivered on
the outbound channel never include a `FatalErr` event: the worker
terminates, returning the error from its thread, and the failure is
observable to the handle only as the absence of further events (channel
closure) — the `FatalErr` send in `completion_worker_actor` is commented
out. -/
theorem worker_delivers_no_fatal_event (e : Engine) (fuel : Nat) :
    ∀ msgs s evs r, completion_worker_actor e fuel msgs s = some (evs, r) →
      evs.all (fun o => !isFatal o) = true := by
  intro msgs
  induction msgs with
  | nil =>
    intro s evs r h
    injection h with h2
    injection h2 with h3 h4
    subst h3
    simp
  | cons msg rest ih =>
    intro s evs r h
    simp only [completion_worker_actor] at h
    split at h
    · cases h
    next evs1 err1 heq =>
      injection h with h2
      injection h2 with h3 h4
      subst h3
      exact handle_msg_no_fatal e fuel s msg _ heq
    next evs1 s1 heq =>
      split at h
      · cases h
      next evs2 r2 heq2 =>
        injection h with h2
        injection h2 with h3 h4
        subst h3
        simp only [List.all_append]
        have ha := handle_msg_no_fatal e fuel s msg _ heq
        have hb := ih _ _ _ heq2
        simp only at ha hb
        simp [ha, hb]

/-- Witness for C2 (amended): a drained command sequence; the delivered
events (none) contain no `FatalErr`. -/
theorem worker_delivers_no_fatal_event_witness :
    completion_worker_actor engStop 1 [.resetContext] ⟨0, [], []⟩ =
      some ([], none) ∧
    ([] : List LLMOutput).all (fun o => !isFatal o) = true :=
  ⟨rfl, worker_delivers_no_fatal_event engStop 1 [.resetContext] ⟨0, [], []⟩
    [] none rfl⟩

/-- Counterexample to C2 as stated: a tokenized `ReadString` whose commit
fails with `DecodeError` terminates the worker, but the outbound channel
carries zero `FatalError` events, not exactly one. -/
theorem worker_fatal_error_without_event_cex :
    completion_worker_actor engFail 5 [.readString "hello"] ⟨0, [], []⟩ =
      some ([], some WorkerError.decodeError) ∧
    ([] : List LLMOutput).countP (fun o => isFatal o) ≠ 1 :=
  ⟨rfl, by decide⟩

/-! ## C3 — context shifting and the position-counter bound -/

/-- Shift-then-commit keeps the position counter below the capacity, for
capacity at least 3. -/
theorem commit_applyShift_lt (C : Nat) (s : WorkerState) (t : Token)
    (h3 : 3 ≤ C) (hp : s.nPast < C) :
    (commitTok (applyShift C s) t).nPast < C := by
  unfold commitTok applyShift shiftDiscard
  split
  · show s.nPast - s.nPast / 2 + 1 < C
    omega
  · show s.nPast + 1 < C
    omega

/-- The generation loop preserves `nPast < nCtx` for capacities of at
least 3: whenever it returns successfully, the position counter of the final
worker state is below capacity (and, by the same induction, so is the
counter at every intermediate iteration, each of which is the initial state
of a recursive call). -/
theorem genLoop_nPast_lt (e : Engine) (h3 : 3 ≤ e.nCtx) (fuel : Nat) :
    ∀ s resp evs rs, s.nPast < e.nCtx →
      genLoop e fuel s resp = some (evs, .ok rs) → rs.2.nPast < e.nCtx := by
  induction fuel with
  | zero =>
    intro s resp evs rs hp h
    simp [genLoop] at h
  | succ n ih =>
    intro s resp evs rs hp h
    simp only [genLoop] at h
    split at h
    · simp at h
    · split at h
      · injection h with h2
        injection h2 with ha hb
        injection hb with hc
        subst hc
        exact commit_applyShift_lt e.nCtx s (nextTok e s) h3 hp
      · split at h
        · split at h
          · injection h with h2
            injection h2 with ha hb
            injection hb with hc
            subst hc
            exact commit_applyShift_lt e.nCtx s (nextTok e s) h3 hp
          · split at h
            · cases h
            next evs1 r1 heq =>
              injection h with h2
              injection h2 with ha hb
              subst hb
              exact ih _ _ _ _
                (commit_applyShift_lt e.nCtx s (nextTok e s) h3 hp) heq
        · simp at h

/-- C3 (amended).  When the position counter has reached capacity minus
one, the shift discards exactly `nPast / 2` oldest tokens and decrements
the counter by the same amount; and for a capacity of at least 3 and a
generation starting below capacity, the committed token count stays within
`[0, nCtx)` at every iteration (counts are naturals, so 0 is a floor by
construction).  The capacity bound is necessary: at capacity 2 the claim
fails (see the counterexample). -/
theorem context_shift_discard_and_bound :
    (∀ (C : Nat) (s : WorkerState), C - 1 ≤ s.nPast →
      (applyShift C s).nPast = s.nPast - s.nPast / 2 ∧
      (applyShift C s).ctx = s.ctx.drop (s.nPast / 2) ∧
      shiftDiscard s.nPast = s.nPast / 2) ∧
    (∀ (e : Engine) (fuel : Nat) (s : WorkerState) (resp : String)
        (evs : List LLMOutput) (rs : String × WorkerState),
      3 ≤ e.nCtx → s.nPast < e.nCtx →
      genLoop e fuel s resp = some (evs, .ok rs) → rs.2.nPast < e.nCtx) := by
  constructor
  · intro C s hreach
    refine ⟨?_, ?_, rfl⟩ <;> simp [applyShift, shiftDiscard, hreach]
  · intro e fuel s resp evs rs h3 hp h
    exact genLoop_nPast_lt e h3 fuel s resp evs rs hp h

/-- Witness for C3 (amended): capacity 3, one immediate end-of-generation
iteration; the final counter 1 is below capacity. -/
theorem context_shift_discard_and_bound_witness :
    (3 ≤ engEogSmall.nCtx) ∧
    ((⟨0, [], []⟩ : WorkerState).nPast < engEogSmall.nCtx) ∧
    (genLoop engEogSmall 1 ⟨0, [], []⟩ "" =
      some ([], .ok ("", ⟨1, [0], []⟩))) ∧
    ((("", (⟨1, [0], []⟩ : WorkerState))).2.nPast < engEogSmall.nCtx) :=
  ⟨by decide, by decide, rfl,
   context_shift_discard_and_bound.2 engEogSmall 1 ⟨0, [], []⟩ "" []
     ("", ⟨1, [0], []⟩) (by decide) (by decide) rfl⟩

/-- Counterexample to C3 as stated (for arbitrary capacity): with capacity
`C = 2` and position counter 1 = C - 1, the shift discards `1 / 2 = 0`
tokens, and committing the sampled token leaves the counter at 2 ∉ [0, 2). -/
theorem context_shift_capacity_two_cex :
    genLoop engShift 1 ⟨1, [5], []⟩ "" =
      some ([], .ok ("", ⟨2, [5, 7], []⟩)) ∧
    ¬((⟨2, [5, 7], []⟩ : WorkerState).nPast < engShift.nCtx) :=
  ⟨rfl, by decide⟩

/-! ## C6 — determinism of Greedy generation -/

/-- C6.  Under the Greedy method on a deterministic stub engine, generation
is deterministic: any two runs from the same worker state and accumulated
response produce exactly the same event sequence (the same `Token` events
in the same order, with the same terminal `Done` text) — in particular two
independent runs with identical configuration, seed and score distribution
are byte-identical, token by token. -/
theorem greedy_generation_deterministic (e : StubEngine) :
    ∀ s resp evs1 evs2, GreedyRun e s resp evs1 → GreedyRun e s resp evs2 →
      evs1 = evs2 := by
  intro s resp evs1 evs2 h1 h2
  induction h1 generalizing evs2 with
  | eog s resp heog =>
    cases h2 with
    | eog => rfl
    | stop _ _ heog2 _ => simp [heog] at heog2
    | cont _ _ _ heog2 _ _ => simp [heog] at heog2
  | stop s resp heog hstop =>
    cases h2 with
    | eog _ _ heog2 => simp [heog] at heog2
    | stop => rfl
    | cont _ _ _ _ hstop2 _ => simp [hstop] at hstop2
  | cont s resp evs heog hstop hrest ih =>
    cases h2 with
    | eog _ _ heog2 => simp [heog] at heog2
    | stop _ _ _ hstop2 => simp [hstop] at hstop2
    | cont _ _ evs2b _ _ hrest2 => rw [ih _ hrest2]

/-- Witness for C6: a stub run that ends generation immediately; two
derivations for it are forced to the same singleton `Done` sequence. -/
theorem greedy_generation_deterministic_witness :
    GreedyRun stubDone ⟨0, [], []⟩ "" [.done ""] ∧
    ([LLMOutput.done ""] = [LLMOutput.done ""]) :=
  ⟨.eog _ _ rfl,
   greedy_generation_deterministic stubDone ⟨0, [], []⟩ "" _ _
     (.eog _ _ rfl) (.eog _ _ rfl)⟩

/-! ## Rendering lemmas, shared by C4, C5 and C8 -/

/-- When the template succeeds, `render` returns its text and leaves the
message list untouched. -/
theorem renderFuel_ok (tmpl : Template) (fuel : Nat) (msgs : List Message)
    (t : String) (h : tmpl msgs = .ok t) :
    renderFuel tmpl (fuel + 1) msgs = some (.ok (t, msgs)) := by
  simp [renderFuel, h]

/-- The recovery step: on the specific system-role error, rendering
continues on the merged message list. -/
theorem renderFuel_recover (tmpl : Template) (fuel : Nat)
    (msgs merged : List Message) (err : RenderError)
    (h1 : tmpl msgs = .error err)
    (h2 : err.kind = ErrorKind.invalidOperation)
    (h3 : strContainsB err.msg "System role not supported" = true)
    (h4 : concat_system_and_first_user_messages msgs = some merged) :
    renderFuel tmpl (fuel + 1) msgs = renderFuel tmpl fuel merged := by
  simp [renderFuel, h1, h2, h3, h4]

/-- Any non-recoverable template failure propagates unchanged. -/
theorem renderFuel_error (tmpl : Template) (fuel : Nat) (msgs : List Message)
    (err : RenderError) (h1 : tmpl msgs = .error err)
    (h2 : ¬(err.kind = ErrorKind.invalidOperation ∧
        strContainsB err.msg "System role not supported" = true)) :
    renderFuel tmpl (fuel + 1) msgs = some (.error err) := by
  simp only [renderFuel, h1]
  rw [if_neg h2]

/-- Whatever message list a successful `render` ends on, the template
accepts it directly with the same output: renders stabilise after the
recovery path has run. -/
theorem renderFuel_ok_fix (tmpl : Template) :
    ∀ fuel msgs t msgs1, renderFuel tmpl fuel msgs = some (.ok (t, msgs1)) →
      tmpl msgs1 = .ok t := by
  intro fuel
  induction fuel with
  | zero =>
    intro msgs t msgs1 h
    simp [renderFuel] at h
  | succ n ih =>
    intro msgs t msgs1 h
    simp only [renderFuel] at h
    split at h
    next r heqT =>
      injection h with h2
      injection h2 with h3
      injection h3 with h4 h5
      subst h4
      subst h5
      exact heqT
    next err heqT =>
      split at h
      · split at h
        next merged heqC => exact ih _ _ _ h
        next heqC => cases h
      · simp at h

/-- A successful `render` is a fixpoint: rendering the returned message
list again succeeds with the same text and the same messages. -/
theorem render_stable (tmpl : Template) (msgs : List Message) (t : String)
    (msgs1 : List Message) (h : render tmpl msgs = some (.ok (t, msgs1))) :
    render tmpl msgs1 = some (.ok (t, msgs1)) := by
  have hfix := renderFuel_ok_fix tmpl (msgs.length + 1) msgs t msgs1 h
  show renderFuel tmpl (msgs1.length + 1) msgs1 = _
  exact renderFuel_ok tmpl _ _ _ hfix

/-- Dropping the own length of a full render leaves the empty diff. -/
theorem strDrop_full (t : String) : strDrop t (strLen t) = "" := by
  unfold strDrop strLen
  rw [List.drop_length]

/-! ## C8 — render_diff is an idempotent read -/

/-- C8.  If `render_diff` succeeds, calling it again with no intervening
`add_message` succeeds and returns the empty string (and leaves the state
unchanged): the second full render reproduces the first one exactly, and
the bookkeeping length already equals its length. -/
theorem render_diff_idempotent (tmpl : Template) (s : ChatState) (d : String)
    (s1 : ChatState) (h : render_diff tmpl s = some (.ok (d, s1))) :
    render_diff tmpl s1 = some (.ok ("", s1)) := by
  unfold render_diff at h
  split at h
  · cases h
  · simp at h
  next text msgs1 heq =>
    injection h with h2
    injection h2 with h3
    injection h3 with h4 h5
    subst h5
    have hs := render_stable tmpl s.messages text msgs1 heq
    unfold render_diff
    simp only
    rw [hs]
    simp only [strDrop_full]

/-- Witness for C8: a fresh state under the content-concatenating
template; the first diff returns the full render, the second the empty
string. -/
theorem render_diff_idempotent_witness :
    (render_diff (pureTmpl catContents) ⟨[⟨"user", "ab"⟩], 0⟩ =
      some (.ok ("ab", ⟨[⟨"user", "ab"⟩], 2⟩))) ∧
    (render_diff (pureTmpl catContents) ⟨[⟨"user", "ab"⟩], 2⟩ =
      some (.ok ("", ⟨[⟨"user", "ab"⟩], 2⟩))) :=
  ⟨rfl,
   render_diff_idempotent (pureTmpl catContents) ⟨[⟨"user", "ab"⟩], 0⟩
     "ab" ⟨[⟨"user", "ab"⟩], 2⟩ rfl⟩

/-! ## C4 — one-time merge recovery for system-rejecting templates -/

/-- C4.  Against the modelled gemma-style template (which rejects a leading
system-role message with the exact error the renderer matches on), a
history opening with a system and then a user message renders successfully
after exactly one recovery: the resulting message list replaces the first
two messages with a single user-role message whose content is the system
text, a blank line, then the user text, and the rendered output contains
both original texts.  And any non-recoverable rendering failure propagates
as that same error, for every template. -/
theorem render_recovers_system_role_once :
    (∀ (s u : String) (rest : List Message),
      render TGemma
          ({ role := "system", content := s } ::
           { role := "user", content := u } :: rest) =
        some (.ok
          (gemmaTextRender
            ({ role := "user", content := s ++ "\n\n" ++ u } :: rest),
           { role := "user", content := s ++ "\n\n" ++ u } :: rest)) ∧
      strContains
        (gemmaTextRender ({ role := "user", content := s ++ "\n\n" ++ u } :: rest)) s ∧
      strContains
        (gemmaTextRender ({ role := "user", content := s ++ "\n\n" ++ u } :: rest)) u) ∧
    (∀ (tmpl : Template) (msgs : List Message) (err : RenderError),
      tmpl msgs = .error err →
      ¬(err.kind = ErrorKind.invalidOperation ∧
          strContainsB err.msg "System role not supported" = true) →
      render tmpl msgs = some (.error err)) := by
  constructor
  · intro s u rest
    have hT : TGemma
        ({ role := "system", content := s } ::
         { role := "user", content := u } :: rest) =
        .error { kind := .invalidOperation, msg := "System role not supported" } := by
      simp [TGemma]
    have hC : concat_system_and_first_user_messages
        ({ role := "system", content := s } ::
         { role := "user", content := u } :: rest) =
        some ({ role := "user", content := s ++ "\n\n" ++ u } :: rest) := by
      simp [concat_system_and_first_user_messages]
    have hM : TGemma ({ role := "user", content := s ++ "\n\n" ++ u } :: rest) =
        .ok (gemmaTextRender ({ role := "user", content := s ++ "\n\n" ++ u } :: rest)) := by
      simp [TGemma]
    refine ⟨?_, ?_, ?_⟩
    · show renderFuel TGemma (rest.length + 2 + 1) _ = _
      rw [renderFuel_recover TGemma (rest.length + 2) _ _ _ hT rfl (by decide) hC]
      exact renderFuel_ok TGemma (rest.length + 1) _ _ hM
    · simp only [gemmaTextRender, gemmaTurns, gemmaTurn]
      apply strContains_append_left
      apply strContains_append_left
      apply strContains_append_left
      apply strContains_append_right
      apply strContains_append_left
      apply strContains_append_left
      exact strContains_self s
    · simp only [gemmaTextRender, gemmaTurns, gemmaTurn]
      apply strContains_append_left
      apply strContains_append_left
      apply strContains_append_left
      apply strContains_append_right
      apply strContains_append_right
      exact strContains_self u
  · intro tmpl msgs err h1 h2
    show renderFuel tmpl (msgs.length + 1) msgs = _
    exact renderFuel_error tmpl msgs.length msgs err h1 h2

/-- Witness for C4: a concrete system-then-user history recovers and
renders; a concrete non-recoverable error propagates. -/
theorem render_recovers_system_role_once_witness :
    (render TGemma [⟨"system", "sys"⟩, ⟨"user", "hi"⟩] =
      some (.ok
        (gemmaTextRender [⟨"user", "sys" ++ "\n\n" ++ "hi"⟩],
         [⟨"user", "sys" ++ "\n\n" ++ "hi"⟩]))) ∧
    (render (fun _ => .error ⟨.other, "boom"⟩) [] =
      some (.error ⟨.other, "boom"⟩)) :=
  ⟨(render_recovers_system_role_once.1 "sys" "hi" []).1,
   render_recovers_system_role_once.2 (fun _ => .error ⟨.other, "boom"⟩) []
     ⟨.other, "boom"⟩ rfl (by decide)⟩

/-! ## C5 — concatenation of render_diff outputs -/

/-- A prefix, extended by what the longer list has beyond it, recovers the
longer list. -/
theorem prefix_append_drop {l1 l2 : List Char} (h : l1 <+: l2) :
    l1 ++ l2.drop l1.length = l2 := by
  obtain ⟨t, rfl⟩ := h
  rw [List.drop_left]

/-- Behaviour of `render_diff` under an always-succeeding template: the diff is the
full render minus the bookkeeping length, and the length advances to the
length of the full render. -/
theorem render_diff_pure (f : List Message → String) (s : ChatState) :
    render_diff (pureTmpl f) s =
      some (.ok (strDrop (f s.messages) s.length,
        ⟨s.messages, strLen (f s.messages)⟩)) := by
  simp [render_diff, render, renderFuel, pureTmpl]

/-- Invariant carried through an operation sequence: while the
concatenated diffs so far are a prefix of the current full render and the
bookkeeping length equals their length, every further run step preserves
this, and the final diff closes the gap exactly. -/
theorem runOps_pure_inv (f : List Message → String)
    (hmono : ∀ ms m, (f ms).data <+: (f (ms ++ [m])).data) :
    ∀ (ops : List ChatOp) (s : ChatState) (acc : String)
      (res : ChatState × String),
      acc.data.length = s.length → acc.data <+: (f s.messages).data →
      runOps (pureTmpl f) (ops ++ [ChatOp.diff]) s acc = some res →
      res.2.data = (f res.1.messages).data := by
  intro ops
  induction ops with
  | nil =>
    intro s acc res hlen hpre h
    simp only [List.nil_append, runOps, render_diff_pure f s] at h
    injection h with h2
    subst h2
    rw [strData_append]
    show acc.data ++ (f s.messages).data.drop s.length = (f s.messages).data
    rw [← hlen]
    exact prefix_append_drop hpre
  | cons op ops ih =>
    cases op with
    | add role content =>
      intro s acc res hlen hpre h
      simp only [List.cons_append, runOps] at h
      refine ih (add_message s role content) acc res ?_ ?_ h
      · exact hlen
      · exact hpre.trans (hmono s.messages ⟨role, content⟩)
    | diff =>
      intro s acc res hlen hpre h
      simp only [List.cons_append, runOps, render_diff_pure f s] at h
      refine ih _ _ _ ?_ ?_ h
      · rw [strData_append]
        show (acc.data ++ (f s.messages).data.drop s.length).length =
          (f s.messages).data.length
        have hle := hpre.length_le
        rw [List.length_append, List.length_drop]
        omega
      · rw [strData_append]
        show acc.data ++ (f s.messages).data.drop s.length <+:
          (f s.messages).data
        rw [← hlen, prefix_append_drop hpre]

/-- C5 (amended).  For a template whose full render is extended — as a
string prefix — by every message append (as the canonical user/assistant
alternation with a trailing generation prompt is), any interleaving of
`add_message` and `render_diff` ending in a `render_diff` yields diff
outputs whose concatenation equals the final full render of the whole
sequence: no gaps and no duplication.  Prefix-monotonicity is necessary:
for the gemma-style template it fails under two consecutive user turns
(see the counterexample). -/
theorem render_diff_concat_monotone (f : List Message → String)
    (hmono : ∀ ms m, (f ms).data <+: (f (ms ++ [m])).data)
    (ops : List ChatOp) (res : ChatState × String)
    (h : runOps (pureTmpl f) (ops ++ [ChatOp.diff]) ⟨[], 0⟩ "" = some res) :
    res.2 = f res.1.messages := by
  apply String.ext
  exact runOps_pure_inv f hmono ops ⟨[], 0⟩ "" res rfl List.nil_prefix h

/-- The content-concatenating template is prefix-monotone under appends. -/
theorem catContents_mono (ms : List Message) (m : Message) :
    (catContents ms).data <+: (catContents (ms ++ [m])).data := by
  induction ms with
  | nil => exact List.nil_prefix
  | cons x xs ih =>
    show (x.content ++ catContents xs).data <+:
      (x.content ++ catContents (xs ++ [m])).data
    rw [strData_append, strData_append]
    obtain ⟨t, ht⟩ := ih
    exact ⟨t, by rw [List.append_assoc, ht]⟩

/-- Witness for C5 (amended): one appended message, one diff; the single
diff equals the full render. -/
theorem render_diff_concat_monotone_witness :
    (runOps (pureTmpl catContents)
        ([ChatOp.add "user" "ab"] ++ [ChatOp.diff]) ⟨[], 0⟩ "" =
      some (⟨[⟨"user", "ab"⟩], 2⟩, "ab")) ∧
    ("ab" = catContents [⟨"user", "ab"⟩]) :=
  ⟨rfl,
   render_diff_concat_monotone catContents
     (fun ms m => catContents_mono ms m) [ChatOp.add "user" "ab"]
     (⟨[⟨"user", "ab"⟩], 2⟩, "ab") rfl⟩

/-- Counterexample to C5 as stated: against the gemma-style template (with
its trailing generation prompt), the sequence add user "a", diff, add user
"b", diff makes the concatenated diffs differ from the final full render —
the second diff starts past the generation prompt of the first render, which the
final render does not contain at that offset. -/
theorem render_diff_concat_cex :
    diffConcatOkP gemmaTextRender
      [.add "user" "a", .diff, .add "user" "b", .diff] = false := by
  decide

/-! ## C9 and C10 — cosine similarity -/

/-- The self dot product is the sum of squares. -/
theorem dotScalar_self (a : List ℝ) :
    dotScalar a a = (a.map (fun x => x ^ 2)).sum := by
  induction a with
  | nil => rfl
  | cons x xs ih =>
    have hstep : dotScalar (x :: xs) (x :: xs) = x * x + dotScalar xs xs := by
      simp [dotScalar]
    rw [hstep, ih]
    simp [pow_two]

/-- The square root of the self dot product is the Euclidean norm. -/
theorem sqrt_dotScalar_self (a : List ℝ) :
    Real.sqrt (dotScalar a a) = euclidNorm a := by
  rw [dotScalar_self]
  rfl

/-- C9.  For equal-length vectors, `cosine_similarity` returns the
not-a-number sentinel exactly when one of the two Euclidean norms is zero,
and otherwise returns the dot product divided by the product of the two
Euclidean norms. -/
theorem cosine_similarity_spec (a b : List ℝ) (h : a.length = b.length) :
    (cosine_similarity a b = .nan ↔ euclidNorm a = 0 ∨ euclidNorm b = 0) ∧
    (euclidNorm a ≠ 0 → euclidNorm b ≠ 0 →
      cosine_similarity a b =
        .val (dotScalar a b / (euclidNorm a * euclidNorm b))) := by
  have hda : dotproduct a a = some (dotScalar a a) := by simp [dotproduct]
  have hdb : dotproduct b b = some (dotScalar b b) := by simp [dotproduct]
  have hdab : dotproduct a b = some (dotScalar a b) := by simp [dotproduct, h]
  have hcs : cosine_similarity a b =
      if euclidNorm a = 0 ∨ euclidNorm b = 0 then CosResult.nan
      else .val (dotScalar a b / (euclidNorm a * euclidNorm b)) := by
    unfold cosine_similarity
    rw [hda, hdb]
    dsimp only
    rw [sqrt_dotScalar_self, sqrt_dotScalar_self, hdab]
  rw [hcs]
  constructor
  · by_cases hc : euclidNorm a = 0 ∨ euclidNorm b = 0
    · rw [if_pos hc]
      simp [hc]
    · rw [if_neg hc]
      simp [hc]
  · intro h1 h2
    rw [if_neg (by tauto)]

/-- Witness for C9 at the one-dimensional vector `[1]`. -/
theorem cosine_similarity_spec_witness :
    ([(1 : ℝ)].length = [(1 : ℝ)].length) ∧
    ((cosine_similarity [(1 : ℝ)] [(1 : ℝ)] = .nan ↔
        euclidNorm [(1 : ℝ)] = 0 ∨ euclidNorm [(1 : ℝ)] = 0) ∧
     (euclidNorm [(1 : ℝ)] ≠ 0 → euclidNorm [(1 : ℝ)] ≠ 0 →
      cosine_similarity [(1 : ℝ)] [(1 : ℝ)] =
        .val (dotScalar [(1 : ℝ)] [(1 : ℝ)] /
          (euclidNorm [(1 : ℝ)] * euclidNorm [(1 : ℝ)])))) :=
  ⟨rfl, cosine_similarity_spec [(1 : ℝ)] [(1 : ℝ)] rfl⟩

/-- C10 (amended).  For vectors of different lengths, `cosine_similarity`
panics on the `dotproduct` assertion exactly when both norms are nonzero;
when either norm is zero the zero-norm check fires first and the function
returns the NaN sentinel without evaluating the mismatched dot product.
Either way it never returns a numeric value for mismatched lengths. -/
theorem cosine_similarity_length_mismatch (a b : List ℝ)
    (h : a.length ≠ b.length) :
    (euclidNorm a ≠ 0 → euclidNorm b ≠ 0 → cosine_similarity a b = .panicked) ∧
    ((euclidNorm a = 0 ∨ euclidNorm b = 0) → cosine_similarity a b = .nan) ∧
    (∀ r : ℝ, cosine_similarity a b ≠ .val r) := by
  have hda : dotproduct a a = some (dotScalar a a) := by simp [dotproduct]
  have hdb : dotproduct b b = some (dotScalar b b) := by simp [dotproduct]
  have hdab : dotproduct a b = none := by simp [dotproduct, h]
  have hcs : cosine_similarity a b =
      if euclidNorm a = 0 ∨ euclidNorm b = 0 then CosResult.nan
      else .panicked := by
    unfold cosine_similarity
    rw [hda, hdb]
    dsimp only
    rw [sqrt_dotScalar_self, sqrt_dotScalar_self, hdab]
  rw [hcs]
  refine ⟨?_, ?_, ?_⟩
  · intro h1 h2
    rw [if_neg (by tauto)]
  · intro hc
    rw [if_pos hc]
  · intro r
    by_cases hc : euclidNorm a = 0 ∨ euclidNorm b = 0
    · rw [if_pos hc]
      simp
    · rw [if_neg hc]
      simp

/-- Witness for C10 (amended) at `[1]` and `[1, 1]`. -/
theorem cosine_similarity_length_mismatch_witness :
    ([(1 : ℝ)].length ≠ [(1 : ℝ), 1].length) ∧
    ((euclidNorm [(1 : ℝ)] ≠ 0 → euclidNorm [(1 : ℝ), 1] ≠ 0 →
        cosine_similarity [(1 : ℝ)] [(1 : ℝ), 1] = .panicked) ∧
     ((euclidNorm [(1 : ℝ)] = 0 ∨ euclidNorm [(1 : ℝ), 1] = 0) →
        cosine_similarity [(1 : ℝ)] [(1 : ℝ), 1] = .nan) ∧
     (∀ r : ℝ, cosine_similarity [(1 : ℝ)] [(1 : ℝ), 1] ≠ .val r)) :=
  ⟨by decide, cosine_similarity_length_mismatch [(1 : ℝ)] [(1 : ℝ), 1] (by decide)⟩

/-- Counterexample to C10 as stated: the vectors `[0]` and `[1, 2]` have
different lengths, yet `cosine_similarity` does not panic — the zero norm
of `[0]` short-circuits to the NaN sentinel before the length assertion in
`dotproduct(a, b)` can fire. -/
theorem cosine_similarity_no_panic_cex :
    cosine_similarity [(0 : ℝ)] [(1 : ℝ), 2] = CosResult.nan := by
  have h0 : dotproduct [(0 : ℝ)] [(0 : ℝ)] = some 0 := by
    simp [dotproduct, dotScalar]
  have h1 : dotproduct [(1 : ℝ), 2] [(1 : ℝ), 2] =
      some (dotScalar [(1 : ℝ), 2] [(1 : ℝ), 2]) := by
    simp [dotproduct]
  unfold cosine_similarity
  rw [h0, h1]
  simp [Real.sqrt_zero]

end NobodyWho
